import Mathlib

/-!
Shallow embedding of the abbreviation-marker core of an editor extension
(`src/abbreviation.py`) and of its tag-removal routine
(`src/lib/remove_tag.py`), together with theorems checking the
specification's claims about them.

Buffers are `List Char` with `Nat` positions.  The event listeners use
`Int` positions (the listener initialises `last_pos` to `-1`).  External
collaborators that are not among the translated sources (the Emmet
engine, syntax-scope matching, the `marker`, `preview` and `lib/utils`
modules) enter as oracle fields of the view structures or as definitions
modelled from the specification's collaborator contracts; each such
definition carries a doc comment saying so.
-/

namespace Emmet

/-! ### Text-buffer primitives (host editor, `Nat` positions) -/

/-- Character at a buffer position; `none` past the end of the buffer. -/
def charAt (text : List Char) (pt : Nat) : Option Char :=
  text.get? pt

/-- Start position of the line containing `pt`: the position just after the
closest `\x5cn` strictly before `pt` (models `view.line(pt).begin()`). -/
def lineBegin (text : List Char) : Nat → Nat
  | 0 => 0
  | pt + 1 => if charAt text pt == some '\n' then pt + 1 else lineBegin text pt

/-- End position of the line containing `pt`: the position of the first
`\x5cn` at or after `pt`, or the buffer length (models
`view.line(pt).end()`). -/
def lineEnd (text : List Char) (pt : Nat) : Nat :=
  pt + ((text.drop pt).takeWhile (fun c => c != '\n')).length

/-- The characters of the half-open range `[b, e)` of the buffer. -/
def sliceOf (text : List Char) (b e : Nat) : List Char :=
  (text.drop b).take (e - b)

/-- `view.erase(edit, Region(b, e))`: removes the range `[b, e)`. -/
def eraseRange (text : List Char) (b e : Nat) : List Char :=
  text.take b ++ text.drop e

/-- `view.replace(edit, Region(b, e), s)`: replaces the range `[b, e)` by `s`. -/
def replaceRange (text : List Char) (b e : Nat) (s : List Char) : List Char :=
  text.take b ++ s ++ text.drop e

/-- Python `str.isspace()`: true iff the string is non-empty and all of its
characters are whitespace. -/
def pyIsSpace (s : List Char) : Bool :=
  !s.isEmpty && s.all Char.isWhitespace

/-! ### `src/lib/remove_tag.py` -/

/-- `get_line_indent(view, pt)`: leading whitespace of the line found from
character location `pt` (the `while pos < end and substr(pos).isspace()`
scan of the source). -/
def get_line_indent (text : List Char) (pt : Nat) : List Char :=
  let lb := lineBegin text pt
  let le := lineEnd text pt
  (sliceOf text lb le).takeWhile Char.isWhitespace

/-- Start positions of all lines of the buffer, in ascending order. -/
def lineStarts (text : List Char) : List Nat :=
  0 :: (((List.range text.length).filter fun i => charAt text i == some '\n').map fun i => i + 1)

/-- `view.lines(Region(b, e))`: the line regions, in sorted order, that
intersect (inclusively touch) the region `[b, e]`. -/
def linesIn (text : List Char) (b e : Nat) : List (Nat × Nat) :=
  (lineStarts text).filterMap fun ls =>
    let le := lineEnd text ls
    if ls ≤ e ∧ b ≤ le then some (ls, le) else none

/-- Modelled from the spec: `narrow_to_non_space` lives in `lib/utils.py`,
which is not among the translated sources; §6 of the specification
describes it as trimming pure-whitespace edges of a range and returning
nothing if the whole range is whitespace. -/
def narrow_to_non_space (text : List Char) (b e : Nat) : Option (Nat × Nat) :=
  let seg := sliceOf text b e
  let nb := b + (seg.takeWhile Char.isWhitespace).length
  let ne2 := e - (seg.reverse.takeWhile Char.isWhitespace).length
  if nb < ne2 then some (nb, ne2) else none

/-- A tag record: required `open` range and optional `close` range. -/
structure Tag where
  openR : Nat × Nat
  closeR : Option (Nat × Nat)
deriving DecidableEq, Repr

/-- The reindent loop of `remove_tag`: for each captured line region
(processed in the given order, the caller reverses them), if the leading
span of length `len(inner_indent)` of the current buffer is entirely
whitespace, replace it with `base_indent`. -/
def reindentLines (t : List Char) (base_indent inner_indent : List Char)
    (ls : List (Nat × Nat)) : List Char :=
  ls.foldl (fun acc line =>
    if pyIsSpace (sliceOf acc line.1 (line.1 + inner_indent.length)) then
      replaceRange acc line.1 (line.1 + inner_indent.length) base_indent
    else acc) t

/-- `remove_tag(view, edit, tag)` from `src/lib/remove_tag.py`, translated
over a `List Char` buffer. -/
def remove_tag (text : List Char) (tag : Tag) : List Char :=
  match tag.closeR with
  | some close_tag =>
    let open_tag := tag.openR
    match narrow_to_non_space text open_tag.2 close_tag.1 with
    | some inner =>
      let t1 := eraseRange text inner.2 close_tag.2
      let base_indent := get_line_indent t1 open_tag.1
      let inner_indent := get_line_indent t1 inner.1
      let inner_lines := ((linesIn t1 inner.1 inner.2).drop 1).reverse
      let t2 := reindentLines t1 base_indent inner_indent inner_lines
      eraseRange t2 open_tag.1 inner.1
    | none =>
      eraseRange text (min open_tag.1 close_tag.1) (max open_tag.2 close_tag.2)
  | none => eraseRange text tag.openR.1 tag.openR.2

/-! ### `is_abbreviation_bound` (`src/abbreviation.py`) -/

/-- The characters `' '`, `'\x5ct'`, `'>'` of `bound_chars = ' \x5ct>'`. -/
def boundChars : List Char := [' ', '\t', '>']

/-- Membership of an optional character in `bound_chars`; a missing
character (out-of-buffer read) does not count as a bound character. -/
def isBoundCharOpt : Option Char → Bool
  | some c => boundChars.contains c
  | none => false

/-- `is_abbreviation_bound(view, pt)` from `src/abbreviation.py`.  At
`pt = 0` the first disjunct of `left` is true, so the `pt - 1` read is
irrelevant there (as in the source, where `line_range.begin() == pt`
short-circuits). -/
def is_abbreviation_bound (text : List Char) (pt : Nat) : Bool :=
  let lb := lineBegin text pt
  let le := lineEnd text pt
  let left := (lb == pt) || isBoundCharOpt (charAt text (pt - 1))
  let right := (le != pt) && !(isBoundCharOpt (charAt text pt))
  left && right

/-! ### Marker data model and event-listener state machine -/

/-- A host region with raw endpoints `a`, `b` (as `sublime.Region`). -/
structure MRegion where
  a : Int
  b : Int
deriving DecidableEq, Repr

/-- `Region.begin()` of the host: the smaller endpoint. -/
def MRegion.beginPos (r : MRegion) : Int := min r.a r.b

/-- `Region.end()` of the host: the larger endpoint. -/
def MRegion.endPos (r : MRegion) : Int := max r.a r.b

/-- `Region.contains(pt)` of the host: inclusive on both ends. -/
def MRegion.contains (r : MRegion) (pt : Int) : Bool :=
  decide (r.beginPos ≤ pt) && decide (pt ≤ r.endPos)

/-- `Region.empty()` of the host. -/
def MRegion.empty (r : MRegion) : Bool := r.a == r.b

/-- Modelled from the spec: the `Marker` record of the `marker` module,
which is not among the translated sources (§3, §4.2 of the
specification): tracked region, raw abbreviation text, the `type` field
of its options snapshot, and the validity flag. -/
structure Marker where
  region : MRegion
  abbreviation : String
  mtype : String
  valid : Bool
deriving DecidableEq, Repr

/-- `preview_as_phantom(marker)` from `src/abbreviation.py`. -/
def preview_as_phantom (m : Marker) : Bool := m.mtype == "stylesheet"

/-- Modelled from the spec: `Marker.contains` of the `marker` module
(not among the translated sources); §4.2 gives inclusive containment in
the marker's region. -/
def Marker.contains (m : Marker) (pt : Int) : Bool := m.region.contains pt

/-- Observable side effects emitted by the handlers (registry calls,
preview calls, Emmet calls, buffer edits). -/
inductive Effect where
  | validateM (m : Marker)
  | dispose
  | updateM (b e : Int)
  | fromLine (pt : Int)
  | attachM (m : Marker)
  | resetM (m : Marker)
  | snippetCall (m : Marker)
  | previewToggle (m : Marker) (pos : Int) (asPhantom : Bool)
  | previewHide
  | selClear
  | selAdd (pt : Int)
  | replaceReg (b e : Int) (s : String)
  | insertSnippet (s : String)
deriving DecidableEq, Repr

/-- One text-modified or selection event's view snapshot: the host data
read by the handlers plus oracles for the external collaborators
(`emmet.abbreviation_from_line`, the scope predicates, and the `marker`
module operations, none of which are among the translated sources). -/
structure View where
  is_widget : Bool
  caret : Int
  markerRegion : Option MRegion
  extractAtCaret : Option (Int × Int)
  revalid : Bool
  updValid : Int → Int → Bool
  updAbbr : Int → Int → String
  fromLineMarker : Option Marker
  bound : Int → Bool
  context : Int → Bool
  cssValueCtx : Bool
  cssColor : Int → Int → Bool

/-- Modelled from the spec: `Marker.validate` re-checks validity without
changing the extent (§4.2); the recomputed flag is the view oracle. -/
def Marker.validate (m : Marker) (v : View) : Marker :=
  { m with valid := v.revalid }

/-- Modelled from the spec: `Marker.update(begin, end)` re-slices the
region to `[begin, end)` and re-extracts abbreviation and validity
(§4.2); the re-extracted data are view oracles. -/
def Marker.update (m : Marker) (v : View) (b e : Int) : Marker :=
  { m with region := ⟨b, e⟩, valid := v.updValid b e, abbreviation := v.updAbbr b e }

/-- Listener state: `self.last_pos` and the registry's marker slot. -/
structure LState where
  last_pos : Int
  marker : Option Marker
deriving Repr

/-- The trailing `if not mrk and caret > last_pos:` block of
`on_modified`: test the marking triggers and call `marker.from_line`
(whose attached marker, or `none` on failure, is the view oracle). -/
def tryCreate (v : View) (last_pos caret : Int) : Option Marker × List Effect :=
  if decide (last_pos < caret) then
    if v.bound last_pos && v.context caret then
      (v.fromLineMarker, [Effect.fromLine caret])
    else if v.cssValueCtx && v.cssColor last_pos caret then
      (v.fromLineMarker, [Effect.fromLine caret])
    else (none, [])
  else (none, [])

/-- `AbbreviationMarkerListener.on_modified` (with its `nonpanel`
guard), as a function from the view snapshot and listener state to the
new state and the emitted effects. -/
def on_modified (v : View) (s : LState) : LState × List Effect :=
  if v.is_widget then (s, [])
  else
    let last_pos := s.last_pos
    let caret := v.caret
    match s.marker with
    | none =>
      let p := tryCreate v last_pos caret
      ({ s with marker := p.1 }, p.2)
    | some mrk0 =>
      let mrk := mrk0.validate v
      match v.markerRegion with
      | none => ({ s with marker := none }, [Effect.validateM mrk0, Effect.dispose])
      | some marker_region =>
        if marker_region.empty then
          ({ s with marker := none }, [Effect.validateM mrk0, Effect.dispose])
        else
          let prev_inside := marker_region.contains last_pos
          let next_inside := marker_region.contains caret
          if prev_inside && next_inside then
            ({ s with marker := some mrk }, [Effect.validateM mrk0])
          else if prev_inside then
            match v.extractAtCaret with
            | some ab =>
              ({ s with marker := some (mrk.update v ab.1 ab.2) },
                [Effect.validateM mrk0, Effect.updateM ab.1 ab.2])
            | none => ({ s with marker := none }, [Effect.validateM mrk0, Effect.dispose])
          else if next_inside && decide (last_pos < caret) then
            ({ s with marker := some (mrk.update v last_pos marker_region.endPos) },
              [Effect.validateM mrk0, Effect.updateM last_pos marker_region.endPos])
          else if !next_inside then
            let p := tryCreate v last_pos caret
            ({ s with marker := p.1 },
              [Effect.validateM mrk0, Effect.dispose] ++ p.2)
          else
            ({ s with marker := some mrk }, [Effect.validateM mrk0])

/-- `AbbreviationMarkerListener.on_selection_modified` (with its
`nonpanel` guard). -/
def on_selection_modified (v : View) (s : LState) : LState × List Effect :=
  if v.is_widget then (s, [])
  else
    let s2 := { s with last_pos := v.caret }
    match s.marker with
    | some mrk => (s2, [Effect.previewToggle mrk v.caret (preview_as_phantom mrk)])
    | none => (s2, [Effect.previewHide])

/-- `AbbreviationMarkerListener.on_activated` (with its `nonpanel`
guard). -/
def on_activated (v : View) (s : LState) : LState :=
  if v.is_widget then s else { s with last_pos := v.caret }

/-- Whether `on_modified` reaches the creation block with its local
marker reference cleared: no marker at entry, or a live marker with a
non-empty region containing neither `last_pos` nor the caret. -/
def reachesCreation (v : View) (s : LState) : Bool :=
  match s.marker with
  | none => true
  | some _ =>
    match v.markerRegion with
    | none => false
    | some r => !r.empty && !r.contains s.last_pos && !r.contains v.caret

/-- Modelled from the spec: `preview.toggle` (the `preview` module is
not among the translated sources) shows or refreshes a rendered preview
(§4.5), so an emitted `previewToggle` effect is a request to show. -/
def previewShowRequested (effs : List Effect) : Bool :=
  effs.any fun e => match e with
    | Effect.previewToggle _ _ _ => true
    | _ => false

/-- Modelled from the spec: `preview.hide` removes any shown preview
(§4.5), so an emitted `previewHide` effect is a request to hide. -/
def previewHideRequested (effs : List Effect) : Bool :=
  effs.any fun e => match e with
    | Effect.previewHide => true
    | _ => false

/-! ### `on_query_completions` -/

/-- View snapshot for a completion query: registry marker, the query
location `locations[0]`, and oracles for
`is_abbreviation_context`, `emmet.abbreviation_from_line`,
`marker.create` and `Marker.snippet`. -/
structure QView where
  marker : Option Marker
  caret : Int
  context : Bool
  extract : Option (Int × Int)
  createM : Int → Int → Marker
  snip : Marker → String

/-- Result of a completion query: the registry content afterwards, the
returned completion list (or nothing), and the emitted effects. -/
structure QCResult where
  attached : Option Marker
  completions : Option (List (String × String))
  effects : List Effect
deriving Repr

/-- `AbbreviationMarkerListener.on_query_completions`. -/
def on_query_completions (v : QView) : QCResult :=
  let st1 : Option Marker × Option Marker × List Effect :=
    match v.marker with
    | some m =>
      if !(m.contains v.caret) then (none, none, [Effect.dispose])
      else (some m, some m, [])
    | none => (none, none, [])
  let st2 : Option Marker × Option Marker × List Effect :=
    match st1.1 with
    | some m => (some m, st1.2.1, st1.2.2)
    | none =>
      if v.context then
        match v.extract with
        | some ab =>
          let m := v.createM ab.1 ab.2
          if m.valid then
            (some m, some m,
              st1.2.2 ++ [Effect.attachM m, Effect.previewToggle m v.caret (preview_as_phantom m)])
          else (none, st1.2.1, st1.2.2 ++ [Effect.resetM m])
        | none => (none, st1.2.1, st1.2.2)
      else (none, st1.2.1, st1.2.2)
  match st2.1 with
  | some m =>
    if m.valid then
      { attached := st2.2.1,
        completions := some [(m.abbreviation ++ "\tEmmet", v.snip m)],
        effects := st2.2.2 ++ [Effect.snippetCall m] }
    else { attached := st2.2.1, completions := none, effects := st2.2.2 }
  | none => { attached := st2.2.1, completions := none, effects := st2.2.2 }

/-- The "valid marker exists" condition of the completion-query
transition: a pre-existing marker containing the caret that is valid,
or (when no pre-existing marker survives the containment check) a fresh
extraction at the caret that creates a valid marker. -/
def freshValid (v : QView) : Bool :=
  v.context && (match v.extract with
    | some ab => (v.createM ab.1 ab.2).valid
    | none => false)

/-- See `freshValid`: the full "valid marker exists" condition. -/
def validMarkerAvailable (v : QView) : Bool :=
  match v.marker with
  | some m => if m.contains v.caret then m.valid else freshValid v
  | none => freshValid v

/-! ### `ExpandAbbreviation.run` -/

/-- View snapshot for the expand command: registry marker, caret, and
the `emmet.expand` oracle. -/
structure XView where
  marker : Option Marker
  caret : Int
  expand : String → String

/-- A Python exception escaping a handler or command. -/
inductive PyError where
  | attributeError
deriving DecidableEq, Repr

/-- `ExpandAbbreviation.run`.  `marker.get` may return `None`; the
source calls `mrk.contains(caret)` without a `None` check, which raises
`AttributeError` — modelled as the `Except.error` case. -/
def ExpandAbbreviation_run (v : XView) : Except PyError (Option Marker × List Effect) :=
  match v.marker with
  | none => Except.error PyError.attributeError
  | some mrk =>
    if mrk.contains v.caret then
      if mrk.valid then
        Except.ok (none,
          [Effect.selClear, Effect.selAdd mrk.region.beginPos,
            Effect.replaceReg mrk.region.a mrk.region.b "",
            Effect.insertSnippet (v.expand mrk.abbreviation), Effect.dispose])
      else Except.ok (none, [Effect.dispose])
    else Except.ok (some mrk, [])

/-! ### Concrete instances used by witnesses and counterexamples -/

/-- The §8 reindent example buffer. -/
def divExample : List Char := "<div>\n    <p>\n        text\n    </p>\n</div>".toList

/-- The `<p>` / `</p>` pair of `divExample`. -/
def divTag : Tag := ⟨(10, 13), some (31, 35)⟩

/-- The §8 expected result of removing `divTag` from `divExample`. -/
def divExpected : List Char := "<div>\n    text\n</div>".toList

/-- A paired tag whose inner content starts at column 0 (empty inner
indent). -/
def bExample : List Char := "<b>\nx\ny\n</b>".toList

/-- The `<b>` / `</b>` pair of `bExample`. -/
def bTag : Tag := ⟨(0, 3), some (8, 12)⟩

/-- A baseline view snapshot for concrete tests. -/
def baseView : View :=
  { is_widget := false
    caret := 0
    markerRegion := none
    extractAtCaret := none
    revalid := true
    updValid := fun _ _ => true
    updAbbr := fun _ _ => ""
    fromLineMarker := none
    bound := fun _ => false
    context := fun _ => false
    cssValueCtx := false
    cssColor := fun _ _ => false }

/-- Marker used by the `C1` witness. -/
def m1 : Marker := ⟨⟨2, 6⟩, "ab", "markup", true⟩

/-- View for the `C1` witness: edit right after the marker. -/
def wv1 : View :=
  { baseView with
    caret := 10
    markerRegion := some ⟨2, 6⟩
    extractAtCaret := some (2, 10)
    updAbbr := fun _ _ => "abcd" }

/-- State for the `C1` witness: previous caret inside the marker. -/
def ws1 : LState := ⟨5, some m1⟩

/-- Marker used by the `C2` counterexample. -/
def m2 : Marker := ⟨⟨5, 8⟩, "ab", "markup", true⟩

/-- Marker that `marker.from_line` would attach in the `C2`
counterexample. -/
def fresh2 : Marker := ⟨⟨20, 21⟩, "u", "markup", true⟩

/-- View for the `C2` counterexample: previous caret inside the marker,
new caret outside and further right, line re-extraction fails, both
marking triggers hold. -/
def cv2 : View :=
  { baseView with
    caret := 20
    markerRegion := some ⟨5, 8⟩
    fromLineMarker := some fresh2
    bound := fun _ => true
    context := fun _ => true }

/-- State for the `C2` counterexample. -/
def cs2 : LState := ⟨6, some m2⟩

/-- Marker used by the `C3` counterexample and witness. -/
def m3 : Marker := ⟨⟨2, 6⟩, "ab", "markup", true⟩

/-- View for `C3`: caret-only move to a position outside the marker. -/
def cv3 : View := { baseView with caret := 10, markerRegion := some ⟨2, 6⟩ }

/-- State for `C3`. -/
def cs3 : LState := ⟨0, some m3⟩

/-- Marker used by the `C4` counterexample and witness. -/
def m4 : Marker := ⟨⟨0, 2⟩, "ab", "markup", true⟩

/-- Expand view for the `C4` counterexample: caret outside the marker. -/
def cx4 : XView := ⟨some m4, 5, fun s => s⟩

/-- Expand view for the `C4` witness: caret inside the valid marker. -/
def wx4 : XView := ⟨some m4, 1, fun s => s ++ "!"⟩

/-- Expand view for `C5`: no marker attached to the buffer. -/
def xv5 : XView := ⟨none, 0, fun s => s⟩

/-- Marker used by the `C7` witness. -/
def m7 : Marker := ⟨⟨0, 2⟩, "ul", "markup", true⟩

/-- Query view for the `C7` witness: stale marker not containing the
caret, and no abbreviation context at the caret. -/
def qv7 : QView :=
  ⟨some m7, 5, false, none, fun a b => ⟨⟨a, b⟩, "x", "markup", false⟩, fun _ => "snip"⟩

/-- View for the `C9` counterexample: a text modification whose new
caret differs from the stored `last_pos`. -/
def cv9 : View := { baseView with caret := 7 }

/-- State for the `C9` counterexample. -/
def cs9 : LState := ⟨3, none⟩

/-! ### Helper lemmas -/

theorem head?_drop_eq_get? {α : Type} (l : List α) (n : Nat) :
    (l.drop n).head? = l.get? n := by
  induction l generalizing n with
  | nil => simp
  | cons a t ih =>
    cases n with
    | zero => simp
    | succ m => exact ih m

theorem lineBegin_le (text : List Char) : ∀ pt, lineBegin text pt ≤ pt := by
  intro pt
  induction pt with
  | zero => simp [lineBegin]
  | succ q ih =>
    simp only [lineBegin]
    split
    · exact Nat.le_refl _
    · exact Nat.le_succ_of_le ih

theorem lineBegin_eq_iff (text : List Char) (pt : Nat) :
    lineBegin text pt = pt ↔ (pt = 0 ∨ charAt text (pt - 1) = some '\n') := by
  cases pt with
  | zero => simp [lineBegin]
  | succ q =>
    by_cases h : charAt text q = some '\n'
    · simp [lineBegin, h]
    · have hle := lineBegin_le text q
      have hb : (charAt text q == some '\n') = false := by
        simpa using h
      simp only [lineBegin, hb, Bool.false_eq_true, if_false, Nat.succ_sub_one,
        Nat.succ_ne_zero, false_or]
      constructor
      · intro hEq; omega
      · intro hc; exact absurd hc h

theorem lineEnd_eq_iff (text : List Char) (pt : Nat) :
    lineEnd text pt = pt ↔ (text.length ≤ pt ∨ charAt text pt = some '\n') := by
  unfold lineEnd
  cases h : text.drop pt with
  | nil =>
    have hlen : text.length ≤ pt := List.drop_eq_nil_iff.mp h
    simp [h, hlen]
  | cons c tl =>
    have hc : charAt text pt = some c := by
      have := head?_drop_eq_get? text pt
      rw [h] at this
      simpa [charAt] using this.symm
    have hlt : ¬(text.length ≤ pt) := by
      intro hle
      rw [List.drop_eq_nil_iff.mpr hle] at h
      exact List.noConfusion h
    by_cases hnl : c = '\n'
    · subst hnl
      simp [h, List.takeWhile, hc]
    · have : (c != '\n') = true := by simpa using hnl
      simp [h, List.takeWhile, this, hlt, hc, hnl]

theorem reindentLines_nil_indent (t base : List Char) (ls : List (Nat × Nat)) :
    reindentLines t base [] ls = t := by
  induction ls generalizing t with
  | nil => rfl
  | cons l ls ih =>
    have h0 : pyIsSpace (sliceOf t l.1 (l.1 + ([] : List Char).length)) = false := by
      simp [pyIsSpace, sliceOf]
    have step : reindentLines t base [] (l :: ls) = reindentLines t base [] ls := by
      simp only [reindentLines, List.foldl_cons, h0, Bool.false_eq_true, if_false]
    rw [step]
    exact ih t

/-! ### Claim theorems -/

/-- C8: `is_abbreviation_bound(pt)` is true iff (a) `pt` is at its
line's start or the character immediately left of `pt` is space, tab or
`>`, and (b) `pt` is not at its line's end and the character at `pt` is
not space, tab or `>`; consequently it is false whenever the character
at `pt` is space, tab or `>`. -/
theorem claim_C8_bound_characterization :
    (∀ (text : List Char) (pt : Nat), pt ≤ text.length →
      (is_abbreviation_bound text pt = true ↔
        ((pt = 0 ∨ charAt text (pt - 1) = some '\n' ∨ isBoundCharOpt (charAt text (pt - 1)) = true)
          ∧ ¬(pt = text.length ∨ charAt text pt = some '\n')
          ∧ isBoundCharOpt (charAt text pt) = false)))
  ∧ (∀ (text : List Char) (pt : Nat) (c : Char),
      charAt text pt = some c → boundChars.contains c = true →
      is_abbreviation_bound text pt = false) := by
  constructor
  · intro text pt hpt
    have hlen : text.length ≤ pt ↔ pt = text.length :=
      ⟨fun h2 => Nat.le_antisymm hpt h2, fun h2 => h2 ▸ Nat.le_refl _⟩
    simp only [is_abbreviation_bound, Bool.and_eq_true, Bool.or_eq_true, beq_iff_eq,
      bne_iff_ne, ne_eq, Bool.not_eq_true', lineBegin_eq_iff, lineEnd_eq_iff, hlen]
    tauto
  · intro text pt c h1 h2
    have hbc : isBoundCharOpt (charAt text pt) = true := by
      rw [h1]
      simpa [isBoundCharOpt] using h2
    simp [is_abbreviation_bound, hbc]

/-- C8 witness: at `pt = 1` in `"x>"` the character at `pt` is `>` so
the bound test fails; at `pt = 1` in `">a"` both sides of the bound
test hold. -/
theorem claim_C8_witness :
    is_abbreviation_bound "x>".toList 1 = false
  ∧ is_abbreviation_bound ">a".toList 1 = true :=
  ⟨claim_C8_bound_characterization.2 "x>".toList 1 '>' (by decide) (by decide),
   (claim_C8_bound_characterization.1 ">a".toList 1 (by decide)).mpr (by decide)⟩

/-- C6: on a paired tag with non-empty trimmed inner content,
`remove_tag` erases from the trimmed inner end through the close tag's
end, computes base and inner indents from the lines of the open tag's
start and of the trimmed inner start, rewrites the leading span of every
inner line but the first (bottom-to-top) when that span is entirely
whitespace, and then erases from the open tag's start through the
trimmed inner start; on the §8 example this yields exactly the stated
output. -/
theorem claim_C6_remove_tag_steps :
    (∀ (text : List Char) (o1 o2 c1 c2 ib ie : Nat),
        narrow_to_non_space text o2 c1 = some (ib, ie) →
        remove_tag text ⟨(o1, o2), some (c1, c2)⟩ =
          eraseRange
            (reindentLines (eraseRange text ie c2)
              (get_line_indent (eraseRange text ie c2) o1)
              (get_line_indent (eraseRange text ie c2) ib)
              (((linesIn (eraseRange text ie c2) ib ie).drop 1).reverse))
            o1 ib)
  ∧ remove_tag divExample divTag = divExpected := by
  constructor
  · intro text o1 o2 c1 c2 ib ie h
    simp only [remove_tag, h]
  · decide

/-- C6 witness: the step decomposition applied to the §8 example. -/
theorem claim_C6_witness :
    remove_tag divExample divTag =
      eraseRange
        (reindentLines (eraseRange divExample 26 35)
          (get_line_indent (eraseRange divExample 26 35) 10)
          (get_line_indent (eraseRange divExample 26 35) 22)
          (((linesIn (eraseRange divExample 26 35) 22 26).drop 1).reverse))
        10 22 :=
  claim_C6_remove_tag_steps.1 divExample 10 13 31 35 22 26 (by decide)

/-- C10: when the inner indent is the empty string, the reindent loop
never fires (`"".isspace()` is false in Python), so `remove_tag` on a
paired tag with non-empty trimmed inner content reduces to the two
erasures and every inner line keeps its original leading text. -/
theorem claim_C10_empty_inner_indent :
    (∀ (t base : List Char) (ls : List (Nat × Nat)), reindentLines t base [] ls = t)
  ∧ (∀ (text : List Char) (o1 o2 c1 c2 ib ie : Nat),
      narrow_to_non_space text o2 c1 = some (ib, ie) →
      get_line_indent (eraseRange text ie c2) ib = [] →
      remove_tag text ⟨(o1, o2), some (c1, c2)⟩ =
        eraseRange (eraseRange text ie c2) o1 ib) := by
  constructor
  · exact reindentLines_nil_indent
  · intro text o1 o2 c1 c2 ib ie h hind
    simp only [remove_tag, h, hind]
    rw [reindentLines_nil_indent]

/-- C10 witness: removing `<b>`/`</b>` from a buffer whose inner
content has no leading whitespace performs only the two erasures. -/
theorem claim_C10_witness :
    remove_tag bExample bTag = eraseRange (eraseRange bExample 7 12) 0 4
  ∧ remove_tag bExample bTag = "x\ny".toList :=
  ⟨claim_C10_empty_inner_indent.2 bExample 0 3 8 12 4 7 (by decide) (by decide),
   by decide⟩

theorem mem_fromLine_tryCreate (v : View) (lp c : Int) :
    Effect.fromLine c ∈ (tryCreate v lp c).2 ↔
      (lp < c ∧ (v.bound lp && v.context c || v.cssValueCtx && v.cssColor lp c) = true) := by
  unfold tryCreate
  by_cases h1 : lp < c
  · by_cases h2 : (v.bound lp && v.context c) = true
    · simp [h1, h2]
    · by_cases h3 : (v.cssValueCtx && v.cssColor lp c) = true
      · simp [h1, h2, h3]
      · simp [h1, h2, h3]
  · simp [h1]

/-- C1: with a live marker whose re-validated region is non-empty, a
text-modified event is classified by where `prev = last_pos` and
`next = caret` fall relative to the region: both inside — nothing
further happens; only `prev` inside — the abbreviation is re-extracted
from the line at `next` and the marker updated to the extracted bounds,
or disposed when extraction fails; only `next` inside with
`next > prev` — the marker is updated to `(prev, region.end)` without a
line re-extraction; neither inside — the marker is disposed (and the
handler falls through to the creation block with the local reference
cleared). -/
theorem claim_C1_edit_classification (v : View) (s : LState) (m : Marker) (r : MRegion)
    (hw : v.is_widget = false) (hm : s.marker = some m)
    (hr : v.markerRegion = some r) (he : r.empty = false) :
    (r.contains s.last_pos = true → r.contains v.caret = true →
      on_modified v s = ({ s with marker := some (m.validate v) }, [Effect.validateM m]))
  ∧ (r.contains s.last_pos = true → r.contains v.caret = false →
      (∀ a b : Int, v.extractAtCaret = some (a, b) →
        on_modified v s = ({ s with marker := some ((m.validate v).update v a b) },
          [Effect.validateM m, Effect.updateM a b]))
      ∧ (v.extractAtCaret = none →
        on_modified v s = ({ s with marker := none },
          [Effect.validateM m, Effect.dispose])))
  ∧ (r.contains s.last_pos = false → r.contains v.caret = true → s.last_pos < v.caret →
      on_modified v s = ({ s with marker := some ((m.validate v).update v s.last_pos r.endPos) },
        [Effect.validateM m, Effect.updateM s.last_pos r.endPos]))
  ∧ (r.contains s.last_pos = false → r.contains v.caret = false →
      on_modified v s = ({ s with marker := (tryCreate v s.last_pos v.caret).1 },
        [Effect.validateM m, Effect.dispose] ++ (tryCreate v s.last_pos v.caret).2)) := by
  refine ⟨?_, ?_, ?_, ?_⟩
  · intro h1 h2
    simp [on_modified, hw, hm, hr, he, h1, h2]
  · intro h1 h2
    constructor
    · intro a b hab
      simp [on_modified, hw, hm, hr, he, h1, h2, hab]
    · intro hab
      simp [on_modified, hw, hm, hr, he, h1, h2, hab]
  · intro h1 h2 h3
    simp [on_modified, hw, hm, hr, he, h1, h2, h3]
  · intro h1 h2
    simp [on_modified, hw, hm, hr, he, h1, h2]

/-- C1 witness: the prev-inside-only, successful re-extraction case at
a concrete view and state. -/
theorem claim_C1_witness :
    on_modified wv1 ws1 = ({ ws1 with marker := some ((m1.validate wv1).update wv1 2 10) },
      [Effect.validateM m1, Effect.updateM 2 10]) :=
  ((claim_C1_edit_classification wv1 ws1 m1 ⟨2, 6⟩ rfl rfl rfl (by decide)).2.1
    (by decide) (by decide)).1 2 10 rfl

/-- C2 counterexample: a live marker is disposed in the prev-inside
branch after a failed re-extraction, `next > prev`, both marking
triggers hold and `marker.from_line` would attach a marker, yet no
creation is attempted and the buffer ends the event with no marker. -/
theorem claim_C2_counterexample :
    (on_modified cv2 cs2).1.marker = none
  ∧ Effect.fromLine 20 ∉ (on_modified cv2 cs2).2
  ∧ cv2.fromLineMarker = some fresh2
  ∧ cv2.bound cs2.last_pos = true
  ∧ cv2.context cv2.caret = true
  ∧ cs2.last_pos < cv2.caret :=
  ⟨by decide, by decide, rfl, rfl, rfl, by decide⟩

/-- C2 amended: the marking triggers are tested (and `marker.from_line`
invoked when one holds) iff `next > prev` and, in addition, either no
marker existed at entry or the live marker had a non-empty region
containing neither `prev` nor `next`; when classification disposed the
marker because its region emptied or a re-extraction failed, no
creation is attempted during the same event. -/
theorem claim_C2_creation_characterization (v : View) (s : LState) :
    Effect.fromLine v.caret ∈ (on_modified v s).2 ↔
      (v.is_widget = false ∧ reachesCreation v s = true ∧ s.last_pos < v.caret ∧
        (v.bound s.last_pos && v.context v.caret ||
          v.cssValueCtx && v.cssColor s.last_pos v.caret) = true) := by
  by_cases hw : v.is_widget
  · simp [on_modified, hw]
  · cases hsm : s.marker with
    | none =>
      simp [on_modified, hw, hsm, reachesCreation, mem_fromLine_tryCreate]
    | some m =>
      cases hr : v.markerRegion with
      | none => simp [on_modified, hw, hsm, hr, reachesCreation]
      | some r =>
        by_cases he : r.empty
        · simp [on_modified, hw, hsm, hr, he, reachesCreation]
        · by_cases hp : r.contains s.last_pos
          · by_cases hn : r.contains v.caret
            · simp [on_modified, hw, hsm, hr, he, hp, hn, reachesCreation]
            · cases hex : v.extractAtCaret with
              | none => simp [on_modified, hw, hsm, hr, he, hp, hn, hex, reachesCreation]
              | some ab => simp [on_modified, hw, hsm, hr, he, hp, hn, hex, reachesCreation]
          · by_cases hn : r.contains v.caret
            · by_cases hlt : s.last_pos < v.caret
              · simp [on_modified, hw, hsm, hr, he, hp, hn, hlt, reachesCreation]
              · simp [on_modified, hw, hsm, hr, he, hp, hn, hlt, reachesCreation]
            · simp [on_modified, hw, hsm, hr, he, hp, hn, reachesCreation,
                mem_fromLine_tryCreate]

/-- C3 counterexample: a caret-only move with a live marker whose
region does not contain the new caret still requests the preview
toggle (a show request under the §4.5 contract) and does not request
hide. -/
theorem claim_C3_counterexample :
    (on_selection_modified cv3 cs3).2
        = [Effect.previewToggle m3 10 (preview_as_phantom m3)]
  ∧ m3.region.contains cv3.caret = false
  ∧ previewHideRequested (on_selection_modified cv3 cs3).2 = false
  ∧ previewShowRequested (on_selection_modified cv3 cs3).2 = true :=
  ⟨rfl, by decide, by decide, by decide⟩

/-- C3 amended: on a caret-only move of a non-widget view the listener
requests the preview toggle (with the new caret, as a block preview
exactly when the marker's type is stylesheet) iff a marker exists —
regardless of where the caret lies relative to the marker's region —
and requests hide iff no marker exists; any containment check is left
to the preview collaborator. -/
theorem claim_C3_preview_requests (v : View) (s : LState) (hw : v.is_widget = false) :
    (∀ m, s.marker = some m →
      on_selection_modified v s = ({ s with last_pos := v.caret },
        [Effect.previewToggle m v.caret (preview_as_phantom m)]))
  ∧ (s.marker = none →
      on_selection_modified v s = ({ s with last_pos := v.caret }, [Effect.previewHide]))
  ∧ (∀ m, preview_as_phantom m = true ↔ m.mtype = "stylesheet") := by
  refine ⟨?_, ?_, ?_⟩
  · intro m hm
    simp [on_selection_modified, hw, hm]
  · intro hm
    simp [on_selection_modified, hw, hm]
  · intro m
    simp [preview_as_phantom]

/-- C3 witness: the toggle request at a concrete view whose caret is
outside the marker's region. -/
theorem claim_C3_witness :
    on_selection_modified cv3 cs3 = ({ cs3 with last_pos := 10 },
      [Effect.previewToggle m3 10 (preview_as_phantom m3)]) :=
  (claim_C3_preview_requests cv3 cs3 rfl).1 m3 rfl

/-- C4 counterexample: invoking Expand with a marker whose region does
not contain the caret leaves the marker attached and emits no effects
at all — the marker is not disposed. -/
theorem claim_C4_counterexample :
    ExpandAbbreviation_run cx4 = Except.ok (some m4, [])
  ∧ m4.contains cx4.caret = false :=
  ⟨rfl, by decide⟩

/-- C4 amended: Expand disposes the marker exactly when the caret is
contained in its region — with the expansion effects when the marker is
valid, silently otherwise; when the caret is not contained, the command
is a no-op and the marker survives. -/
theorem claim_C4_expand_dispose (v : XView) (m : Marker) (hm : v.marker = some m) :
    (m.contains v.caret = true → m.valid = true →
      ExpandAbbreviation_run v = Except.ok (none,
        [Effect.selClear, Effect.selAdd m.region.beginPos,
          Effect.replaceReg m.region.a m.region.b "",
          Effect.insertSnippet (v.expand m.abbreviation), Effect.dispose]))
  ∧ (m.contains v.caret = true → m.valid = false →
      ExpandAbbreviation_run v = Except.ok (none, [Effect.dispose]))
  ∧ (m.contains v.caret = false →
      ExpandAbbreviation_run v = Except.ok (some m, [])) := by
  refine ⟨fun h1 h2 => ?_, fun h1 h2 => ?_, fun h1 => ?_⟩
  · simp [ExpandAbbreviation_run, hm, h1, h2]
  · simp [ExpandAbbreviation_run, hm, h1, h2]
  · simp [ExpandAbbreviation_run, hm, h1]

/-- C4 witness: Expand at a caret inside a valid marker performs the
expansion and disposes the marker. -/
theorem claim_C4_witness :
    ExpandAbbreviation_run wx4 = Except.ok (none,
      [Effect.selClear, Effect.selAdd m4.region.beginPos,
        Effect.replaceReg m4.region.a m4.region.b "",
        Effect.insertSnippet (wx4.expand m4.abbreviation), Effect.dispose]) :=
  (claim_C4_expand_dispose wx4 m4 rfl).1 (by decide) rfl

/-- C5: the claim expects no operation ever to raise, but invoking
Expand when no marker is attached evaluates `None.contains(caret)` and
raises `AttributeError`, which escapes to the host. -/
theorem claim_C5_expand_raises :
    ExpandAbbreviation_run xv5 = Except.error PyError.attributeError := rfl

/-- C7: on a completion query, a pre-existing marker not containing the
caret is disposed; the query returns exactly one entry — labelled with
the raw abbreviation text (plus the Emmet annotation) and carrying the
expansion snippet — iff a valid marker exists (pre-existing or freshly
extracted at the caret); and `snippet()` is invoked only on markers
whose valid flag is true. -/
theorem claim_C7_completion_contract (v : QView) :
    (∀ m, v.marker = some m → m.contains v.caret = false →
      Effect.dispose ∈ (on_query_completions v).effects)
  ∧ ((on_query_completions v).completions.isSome = validMarkerAvailable v)
  ∧ (∀ l, (on_query_completions v).completions = some l →
      ∃ m, m.valid = true ∧ l = [(m.abbreviation ++ "\tEmmet", v.snip m)])
  ∧ (∀ m, Effect.snippetCall m ∈ (on_query_completions v).effects → m.valid = true) := by
  cases hm : v.marker with
  | some m0 =>
    by_cases hc : m0.contains v.caret
    · by_cases hv : m0.valid
      · refine ⟨?_, ?_, ?_, ?_⟩
        · intro m hmm hcc
          cases hmm
          exact absurd hc (by simp [hcc])
        · simp [on_query_completions, validMarkerAvailable, hm, hc, hv]
        · intro l hl
          refine ⟨m0, hv, ?_⟩
          simpa [on_query_completions, hm, hc, hv] using hl.symm
        · intro m hmem
          simp [on_query_completions, hm, hc, hv] at hmem
          subst hmem
          exact hv
      · refine ⟨?_, ?_, ?_, ?_⟩
        · intro m hmm hcc
          cases hmm
          exact absurd hc (by simp [hcc])
        · simp [on_query_completions, validMarkerAvailable, hm, hc, hv]
        · intro l hl
          simp [on_query_completions, hm, hc, hv] at hl
        · intro m hmem
          simp [on_query_completions, hm, hc, hv] at hmem
    · by_cases hctx : v.context
      · cases hex : v.extract with
        | none =>
          refine ⟨?_, ?_, ?_, ?_⟩
          · intro m hmm hcc
            simp [on_query_completions, hm, hc, hctx, hex]
          · simp [on_query_completions, validMarkerAvailable, freshValid, hm, hc, hctx, hex]
          · intro l hl
            simp [on_query_completions, hm, hc, hctx, hex] at hl
          · intro m hmem
            simp [on_query_completions, hm, hc, hctx, hex] at hmem
        | some ab =>
          by_cases hcv : (v.createM ab.1 ab.2).valid
          · refine ⟨?_, ?_, ?_, ?_⟩
            · intro m hmm hcc
              simp [on_query_completions, hm, hc, hctx, hex, hcv]
            · simp [on_query_completions, validMarkerAvailable, freshValid, hm, hc, hctx,
                hex, hcv]
            · intro l hl
              refine ⟨v.createM ab.1 ab.2, hcv, ?_⟩
              simpa [on_query_completions, hm, hc, hctx, hex, hcv] using hl.symm
            · intro m hmem
              simp [on_query_completions, hm, hc, hctx, hex, hcv] at hmem
              subst hmem
              exact hcv
          · refine ⟨?_, ?_, ?_, ?_⟩
            · intro m hmm hcc
              simp [on_query_completions, hm, hc, hctx, hex, hcv]
            · simp [on_query_completions, validMarkerAvailable, freshValid, hm, hc, hctx,
                hex, hcv]
            · intro l hl
              simp [on_query_completions, hm, hc, hctx, hex, hcv] at hl
            · intro m hmem
              simp [on_query_completions, hm, hc, hctx, hex, hcv] at hmem
      · refine ⟨?_, ?_, ?_, ?_⟩
        · intro m hmm hcc
          simp [on_query_completions, hm, hc, hctx]
        · simp [on_query_completions, validMarkerAvailable, freshValid, hm, hc, hctx]
        · intro l hl
          simp [on_query_completions, hm, hc, hctx] at hl
        · intro m hmem
          simp [on_query_completions, hm, hc, hctx] at hmem
  | none =>
    by_cases hctx : v.context
    · cases hex : v.extract with
      | none =>
        refine ⟨?_, ?_, ?_, ?_⟩
        · intro m hmm hcc
          exact Option.noConfusion hmm
        · simp [on_query_completions, validMarkerAvailable, freshValid, hm, hctx, hex]
        · intro l hl
          simp [on_query_completions, hm, hctx, hex] at hl
        · intro m hmem
          simp [on_query_completions, hm, hctx, hex] at hmem
      | some ab =>
        by_cases hcv : (v.createM ab.1 ab.2).valid
        · refine ⟨?_, ?_, ?_, ?_⟩
          · intro m hmm hcc
            exact Option.noConfusion hmm
          · simp [on_query_completions, validMarkerAvailable, freshValid, hm, hctx, hex, hcv]
          · intro l hl
            refine ⟨v.createM ab.1 ab.2, hcv, ?_⟩
            simpa [on_query_completions, hm, hctx, hex, hcv] using hl.symm
          · intro m hmem
            simp [on_query_completions, hm, hctx, hex, hcv] at hmem
            subst hmem
            exact hcv
        · refine ⟨?_, ?_, ?_, ?_⟩
          · intro m hmm hcc
            exact Option.noConfusion hmm
          · simp [on_query_completions, validMarkerAvailable, freshValid, hm, hctx, hex, hcv]
          · intro l hl
            simp [on_query_completions, hm, hctx, hex, hcv] at hl
          · intro m hmem
            simp [on_query_completions, hm, hctx, hex, hcv] at hmem
    · refine ⟨?_, ?_, ?_, ?_⟩
      · intro m hmm hcc
        exact Option.noConfusion hmm
      · simp [on_query_completions, validMarkerAvailable, freshValid, hm, hctx]
      · intro l hl
        simp [on_query_completions, hm, hctx] at hl
      · intro m hmem
        simp [on_query_completions, hm, hctx] at hmem

/-- C7 witness: a stale marker not containing the caret is disposed and
the query returns nothing. -/
theorem claim_C7_witness :
    Effect.dispose ∈ (on_query_completions qv7).effects
  ∧ (on_query_completions qv7).completions = none :=
  ⟨(claim_C7_completion_contract qv7).1 m7 rfl (by decide), by decide⟩

/-- C9 counterexample: a text-modified event with new caret `7` leaves
`last_pos` at its previous value `3`; the handler itself does not set
`last_pos` to `next`. -/
theorem claim_C9_counterexample :
    (on_modified cv9 cs9).1.last_pos = 3 ∧ cv9.caret = 7 ∧ (3 : Int) ≠ 7 :=
  ⟨by decide, rfl, by decide⟩

/-- C9 amended: `last_pos` is set to the current caret by every
selection change and activation of a non-widget view, while the
text-modified handler leaves it unchanged; it equals `next` only once
the host delivers the follow-up selection-modified event. -/
theorem claim_C9_last_pos (v : View) (s : LState) :
    (on_modified v s).1.last_pos = s.last_pos
  ∧ (on_selection_modified v s).1.last_pos = (if v.is_widget then s.last_pos else v.caret)
  ∧ (on_activated v s).last_pos = (if v.is_widget then s.last_pos else v.caret) := by
  refine ⟨?_, ?_, ?_⟩
  · by_cases hw : v.is_widget
    · simp [on_modified, hw]
    · cases hsm : s.marker with
      | none => simp [on_modified, hw, hsm]
      | some m =>
        cases hr : v.markerRegion with
        | none => simp [on_modified, hw, hsm, hr]
        | some r =>
          by_cases he : r.empty
          · simp [on_modified, hw, hsm, hr, he]
          · by_cases hp : r.contains s.last_pos
            · by_cases hn : r.contains v.caret
              · simp [on_modified, hw, hsm, hr, he, hp, hn]
              · cases hex : v.extractAtCaret with
                | none => simp [on_modified, hw, hsm, hr, he, hp, hn, hex]
                | some ab => simp [on_modified, hw, hsm, hr, he, hp, hn, hex]
            · by_cases hn : r.contains v.caret
              · by_cases hlt : s.last_pos < v.caret
                · simp [on_modified, hw, hsm, hr, he, hp, hn, hlt]
                · simp [on_modified, hw, hsm, hr, he, hp, hn, hlt]
              · simp [on_modified, hw, hsm, hr, he, hp, hn]
  · by_cases hw : v.is_widget
    · simp [on_selection_modified, hw]
    · cases hsm : s.marker <;> simp [on_selection_modified, hw, hsm]
  · by_cases hw : v.is_widget <;> simp [on_activated, hw]

end Emmet
